import Mathlib

/-
  Verification of the stock write model (src/stocks/commands/write_stock.py).

  Shallow embedding conventions:
  * The durable store (MySQL `stocks` table) is a list of `Stock` rows; a SQL
    UPDATE maps over all rows matching the WHERE clause.
  * The cache (Redis) is an association list from product id to a hash whose
    four fields may each be absent (`Option`), since `hset key field value`
    creates a hash holding only that field.
  * Order line items are polymorphic in shape (attribute-bearing object vs
    key/value mapping); reading a field with the accessor of the wrong shape
    raises (AttributeError / TypeError), modelled with `Except`.
  * Python ints are `Int` (unbounded, may go negative); prices are carried
    values never computed with, modelled as `Rat`.
  * `update_stock_redis` issues its writes through a pipeline executed once at
    the end, so all `hget` reads observe the pre-call cache; the embedding
    collects the writes in a list and applies them after all reads.
-/

deriving instance DecidableEq for Except

namespace StockLab

/-- Shape of an order line item: attribute-bearing object or key/value mapping. -/
inductive Shape where
  | obj : Shape
  | kvmap : Shape
  deriving DecidableEq, Repr

/-- A row of the durable `stocks` table. -/
structure Stock where
  product_id : Nat
  quantity : Int
  deriving DecidableEq, Repr

/-- A Redis hash stored under key `stock:{product_id}`; each field may be absent,
since `hset key field value` creates the hash with only that field. -/
structure CacheEntry where
  quantity : Option Int := none
  name : Option String := none
  sku : Option String := none
  price : Option Rat := none
  deriving DecidableEq, Repr

/-- The cache keyspace restricted to `stock:*` keys: an association list from
product id to hash. -/
abbrev Cache := List (Nat × CacheEntry)

/-- An order line item: `product_id` and `quantity` are always present;
name, sku and price are optional enrichment fields. -/
structure LineItem where
  shape : Shape
  product_id : Nat
  quantity : Int
  name : Option String := none
  sku : Option String := none
  price : Option Rat := none
  deriving DecidableEq, Repr

/-- Rows matched by `UPDATE stocks ... WHERE product_id = :pid` (the reported
rowcount). -/
def rowsMatching (db : List Stock) (pid : Nat) : Nat :=
  (db.filter (fun s => s.product_id = pid)).length

/-- First durable quantity recorded for a product, if any. -/
def dbQty (db : List Stock) (pid : Nat) : Option Int :=
  (db.find? (fun s => s.product_id = pid)).map (fun s => s.quantity)

/-- Effect of `UPDATE stocks SET quantity = quantity + :delta WHERE product_id = :pid`. -/
def sqlAdjust (db : List Stock) (pid : Nat) (delta : Int) : List Stock :=
  db.map (fun s => if s.product_id = pid then { s with quantity := s.quantity + delta } else s)

/-- Effect of `UPDATE stocks SET quantity = :qty WHERE product_id = :pid`. -/
def sqlSetQty (db : List Stock) (pid : Nat) (qty : Int) : List Stock :=
  db.map (fun s => if s.product_id = pid then { s with quantity := qty } else s)

/-- The interpolated statement `UPDATE stocks SET quantity = quantity {operation} :qty`:
only the operations "+" and "-" yield valid SQL; anything else is a server error. -/
def execUpdateStockSql (db : List Stock) (pid : Nat) (qty : Int) (op : String) :
    Except String (List Stock) :=
  if op = "+" then Except.ok (sqlAdjust db pid qty)
  else if op = "-" then Except.ok (sqlAdjust db pid (-qty))
  else Except.error "SQL syntax error"

/-- Reading `(product_id, quantity)` off a line item with the accessors chosen by
`hasattr(order_items[0], 'product_id')`: attribute access on a mapping raises
AttributeError, subscripting an object raises TypeError. -/
def readItemAs (objShape : Bool) (it : LineItem) : Except String (Nat × Int) :=
  if objShape then
    if it.shape = Shape.obj then Except.ok (it.product_id, it.quantity)
    else Except.error "AttributeError"
  else
    if it.shape = Shape.kvmap then Except.ok (it.product_id, it.quantity)
    else Except.error "TypeError"

/-- Loop body of `update_stock_mysql`: the shape test is made on the first item of
the batch and reused for every item. -/
def update_stock_mysql_loop (objShape : Bool) (db : List Stock) (items : List LineItem)
    (op : String) : Except String (List Stock) :=
  match items with
  | [] => Except.ok db
  | it :: rest =>
    match readItemAs objShape it with
    | Except.error msg => Except.error msg
    | Except.ok (pid, qty) =>
      match execUpdateStockSql db pid qty op with
      | Except.error msg => Except.error msg
      | Except.ok db2 => update_stock_mysql_loop objShape db2 rest op

/-- `update_stock_mysql(session, order_items, operation)`: per-item UPDATE of the
stocks table; the item shape is sampled once from `order_items[0]`. -/
def update_stock_mysql (db : List Stock) (order_items : List LineItem) (operation : String) :
    Except String (List Stock) :=
  match order_items with
  | [] => Except.ok db
  | first :: _ => update_stock_mysql_loop (first.shape = Shape.obj) db order_items operation

/-- `check_out_items_from_stock(session, order_items)`. -/
def check_out_items_from_stock (db : List Stock) (order_items : List LineItem) :
    Except String (List Stock) :=
  update_stock_mysql db order_items "-"

/-- `check_in_items_to_stock(session, order_items)`. -/
def check_in_items_to_stock (db : List Stock) (order_items : List LineItem) :
    Except String (List Stock) :=
  update_stock_mysql db order_items "+"

/-- Look up the hash stored under `stock:{pid}`. -/
def cacheLookup : Cache → Nat → Option CacheEntry
  | [], _ => none
  | kv :: rest, pid => if kv.1 = pid then some kv.2 else cacheLookup rest pid

/-- Store a hash under `stock:{pid}`, replacing the existing one if present. -/
def cacheSet : Cache → Nat → CacheEntry → Cache
  | [], pid, e => [(pid, e)]
  | kv :: rest, pid, e => if kv.1 = pid then (pid, e) :: rest else kv :: cacheSet rest pid e

/-- `r.hset(key, "quantity", qty)`: sets the single field `quantity`, creating the
hash if absent and leaving any other fields untouched. -/
def hsetQuantity (c : Cache) (pid : Nat) (qty : Int) : Cache :=
  match cacheLookup c pid with
  | some e => cacheSet c pid { e with quantity := some qty }
  | none => cacheSet c pid { quantity := some qty }

/-- Cached quantity as read by `r.hget(key, "quantity")` followed by
`int(x) if x else 0`: missing key or missing field defaults to 0. -/
def currentQty (c : Cache) (pid : Nat) : Int :=
  (((cacheLookup c pid).bind (fun e => e.quantity)).getD 0)

/-- A product row of the durable `products` table. -/
structure Product where
  id : Nat
  name : String
  sku : String
  price : Rat
  deriving DecidableEq, Repr

/-- Rows of `SELECT p.id, p.name, p.sku, p.price, s.quantity FROM products p JOIN
stocks s ON p.id = s.product_id`. -/
def joinProductsStocks (products : List Product) (stocks : List Stock) :
    List (Nat × String × String × Rat × Int) :=
  products.flatMap (fun p =>
    (stocks.filter (fun s => s.product_id = p.id)).map
      (fun s => (p.id, p.name, p.sku, p.price, s.quantity)))

/-- The full hash written for one joined row. -/
def fullEntry (name : String) (sku : String) (price : Rat) (qty : Int) : CacheEntry :=
  { quantity := some qty, name := some name, sku := some sku, price := some price }

/-- The pipelined `hset(key, mapping=...)` write queued for one joined row. -/
def joinWrite (row : Nat × String × String × Rat × Int) : Nat × CacheEntry :=
  (row.1, fullEntry row.2.1 row.2.2.1 row.2.2.2.1 row.2.2.2.2)

/-- `_populate_redis_from_mysql(redis_conn)`: rebuilds the cache from the
products-stocks join, queueing one full-entry write per row into a pipeline
executed at the end; when the join is empty no write is issued. -/
def _populate_redis_from_mysql (products : List Product) (stocks : List Stock)
    (c : Cache) : Cache :=
  let rows := joinProductsStocks products stocks
  if rows.length = 0 then c
  else (rows.map joinWrite).foldl (fun acc w => cacheSet acc w.1 w.2) c

/-- Normalization of one line item inside `update_stock_redis`: the shape is
tested per item with `hasattr(item, 'product_id')`; both branches read the same
fields with the same defaults. -/
def normalizeRedisItem (it : LineItem) : Nat × Int × String × String × Rat :=
  match it.shape with
  | Shape.obj =>
    (it.product_id, it.quantity,
      it.name.getD ("Product " ++ toString it.product_id),
      it.sku.getD ("SKU-" ++ toString it.product_id),
      it.price.getD 0)
  | Shape.kvmap =>
    (it.product_id, it.quantity,
      it.name.getD ("Product " ++ toString it.product_id),
      it.sku.getD ("SKU-" ++ toString it.product_id),
      it.price.getD 0)

/-- The pipelined `hset(key, mapping=...)` write queued for one line item:
the read of the current quantity happens against the pre-call cache `c`. -/
def redisWriteOf (c : Cache) (operation : String) (it : LineItem) : Nat × CacheEntry :=
  let n := normalizeRedisItem it
  let newq := if operation = "+" then currentQty c n.1 + n.2.1 else currentQty c n.1 - n.2.1
  (n.1, fullEntry n.2.2.1 n.2.2.2.1 n.2.2.2.2 newq)

/-- `update_stock_redis(order_items, operation)`: no-op on an empty batch; full
resync from the durable store when no `stock:*` key exists; otherwise per-item
read-modify-write with the writes pipelined and executed once at the end. -/
def update_stock_redis (products : List Product) (stocks : List Stock) (c : Cache)
    (order_items : List LineItem) (operation : String) : Cache :=
  if order_items.isEmpty then c
  else if c.isEmpty then _populate_redis_from_mysql products stocks c
  else (order_items.map (redisWriteOf c operation)).foldl (fun acc w => cacheSet acc w.1 w.2) c

/-- Injection point for a durable-store failure inside `set_stock_for_product`. -/
inductive FailPoint where
  | noFail : FailPoint
  | onUpdate : FailPoint
  | onInsert : FailPoint
  deriving DecidableEq, Repr

/-- Observable outcome of one call to `set_stock_for_product`. -/
structure SetStockResult where
  db : List Stock
  cache : Cache
  message : Option String
  raised : Bool
  committed : Bool
  sessionClosed : Bool
  deriving DecidableEq, Repr

/-- `set_stock_for_product(product_id, quantity)`: UPDATE; on zero affected rows
insert-flush-commit a new row; then `hset` the cache quantity; any durable-store
error (injected through `fp`) rolls the session back and re-raises; the session
is closed in all cases. -/
def set_stock_for_product (db0 : List Stock) (c0 : Cache) (product_id : Nat)
    (quantity : Int) (fp : FailPoint) : SetStockResult :=
  match fp with
  | FailPoint.onUpdate =>
    { db := db0, cache := c0, message := none, raised := true, committed := false,
      sessionClosed := true }
  | fp =>
    let rc := rowsMatching db0 product_id
    let db1 := sqlSetQty db0 product_id quantity
    if rc = 0 then
      match fp with
      | FailPoint.onInsert =>
        { db := db0, cache := c0, message := none, raised := true, committed := false,
          sessionClosed := true }
      | _ =>
        { db := db1 ++ [{ product_id := product_id, quantity := quantity }],
          cache := hsetQuantity c0 product_id quantity,
          message := some ("rows added: " ++ toString product_id),
          raised := false, committed := true, sessionClosed := true }
    else
      { db := db1,
        cache := hsetQuantity c0 product_id quantity,
        message := some ("rows updated: " ++ toString rc),
        raised := false, committed := false, sessionClosed := true }

/-- Signed delta produced by `quantity {operation} :qty` for a valid operation. -/
def opDelta (op : String) (q : Int) : Int :=
  if op = "+" then q else -q

/-- Specification-side batch adjustment: each item read directly off its own
fields, independent of shape. -/
def applyItemsOp (db : List Stock) (items : List LineItem) (op : String) : List Stock :=
  items.foldl (fun acc it => sqlAdjust acc it.product_id (opDelta op it.quantity)) db

/-- Last pipelined write queued for a given key, if any. -/
def lastWrite : List (Nat × CacheEntry) → Nat → Option CacheEntry
  | [], _ => none
  | w :: ws, pid =>
    match lastWrite ws pid with
    | some e => some e
    | none => if w.1 = pid then some w.2 else none

lemma execUpdateStockSql_valid (db : List Stock) (pid : Nat) (q : Int) (op : String)
    (hop : op = "+" ∨ op = "-") :
    execUpdateStockSql db pid q op = Except.ok (sqlAdjust db pid (opDelta op q)) := by
  rcases hop with h | h <;> simp [execUpdateStockSql, opDelta, h]

lemma readItemAs_self (it : LineItem) :
    readItemAs (it.shape = Shape.obj) it = Except.ok (it.product_id, it.quantity) := by
  cases h : it.shape <;> simp [readItemAs, h]

lemma dbQty_sqlAdjust_self (db : List Stock) (pid : Nat) (d : Int) :
    dbQty (sqlAdjust db pid d) pid = (dbQty db pid).map (fun q => q + d) := by
  induction db with
  | nil => rfl
  | cons s rest ih =>
    by_cases h : s.product_id = pid <;>
      simp [dbQty, sqlAdjust, List.find?, h] at ih ⊢ <;>
      simpa [dbQty, sqlAdjust] using ih

lemma sqlAdjust_sqlAdjust (db : List Stock) (pid : Nat) (a b : Int) :
    sqlAdjust (sqlAdjust db pid a) pid b = sqlAdjust db pid (a + b) := by
  induction db with
  | nil => rfl
  | cons s rest ih =>
    by_cases h : s.product_id = pid <;> simp [sqlAdjust, h, add_assoc] at ih ⊢ <;>
      simpa [sqlAdjust] using ih

lemma sqlAdjust_zero (db : List Stock) (pid : Nat) :
    sqlAdjust db pid 0 = db := by
  induction db with
  | nil => rfl
  | cons s rest ih =>
    cases s with
    | mk spid sq =>
      by_cases h : spid = pid <;> simp [sqlAdjust, h] at ih ⊢ <;> simpa [sqlAdjust] using ih

lemma sqlAdjust_not_mem (db : List Stock) (pid : Nat) (d : Int)
    (h : ∀ s ∈ db, s.product_id ≠ pid) :
    sqlAdjust db pid d = db := by
  induction db with
  | nil => rfl
  | cons s rest ih =>
    have hs : s.product_id ≠ pid := h s (List.mem_cons_self s rest)
    simp [sqlAdjust, hs] at ih ⊢
    exact ih (fun t ht => h t (List.mem_cons_of_mem s ht))

lemma cacheLookup_cacheSet_self (c : Cache) (pid : Nat) (e : CacheEntry) :
    cacheLookup (cacheSet c pid e) pid = some e := by
  induction c with
  | nil => simp [cacheSet, cacheLookup]
  | cons kv rest ih =>
    by_cases h : kv.1 = pid <;> simp [cacheSet, cacheLookup, h, ih]

lemma cacheLookup_cacheSet_ne (c : Cache) (pid pid2 : Nat) (e : CacheEntry)
    (h : pid2 ≠ pid) :
    cacheLookup (cacheSet c pid e) pid2 = cacheLookup c pid2 := by
  induction c with
  | nil =>
    simp [cacheSet, cacheLookup]
    exact fun hc => h hc.symm
  | cons kv rest ih =>
    by_cases hk : kv.1 = pid
    · subst hk
      simp [cacheSet, cacheLookup, Ne.symm h, h]
    · by_cases hk2 : kv.1 = pid2 <;> simp [cacheSet, cacheLookup, hk, hk2, h, ih]

lemma cacheLookup_foldl_set (ws : List (Nat × CacheEntry)) (c : Cache) (pid : Nat) :
    cacheLookup (ws.foldl (fun acc w => cacheSet acc w.1 w.2) c) pid =
      (lastWrite ws pid).or (cacheLookup c pid) := by
  induction ws generalizing c with
  | nil => simp [lastWrite]
  | cons w ws ih =>
    rw [List.foldl_cons, ih, lastWrite]
    cases hl : lastWrite ws pid with
    | some e => simp
    | none =>
      by_cases h : w.1 = pid
      · subst h
        simp [cacheLookup_cacheSet_self]
      · simp only [Option.or, h, if_false]
        exact cacheLookup_cacheSet_ne c w.1 pid w.2 (fun hc => h hc.symm)

lemma lastWrite_append (xs ys : List (Nat × CacheEntry)) (pid : Nat) :
    lastWrite (xs ++ ys) pid = (lastWrite ys pid).or (lastWrite xs pid) := by
  induction xs with
  | nil => simp [lastWrite]
  | cons x xs ih =>
    rw [List.cons_append, lastWrite, ih, lastWrite]
    cases hl : lastWrite ys pid <;> cases hx : lastWrite xs pid <;> simp [Option.or]

lemma lastWrite_eq_none (ws : List (Nat × CacheEntry)) (pid : Nat)
    (h : ∀ w ∈ ws, w.1 ≠ pid) :
    lastWrite ws pid = none := by
  induction ws with
  | nil => rfl
  | cons w ws ih =>
    rw [lastWrite, ih (fun t ht => h t (List.mem_cons_of_mem w ht))]
    simp [h w (List.mem_cons_self w ws)]

lemma lastWrite_mem (ws : List (Nat × CacheEntry)) (pid : Nat) (e : CacheEntry)
    (h : lastWrite ws pid = some e) : (pid, e) ∈ ws := by
  induction ws with
  | nil => simp [lastWrite] at h
  | cons w ws ih =>
    cases hl : lastWrite ws pid with
    | some e2 =>
      simp only [lastWrite, hl, Option.some.injEq] at h
      rw [h] at hl
      exact List.mem_cons_of_mem w (ih hl)
    | none =>
      simp only [lastWrite, hl] at h
      by_cases hw : w.1 = pid
      · simp only [hw, if_true, Option.some.injEq] at h
        refine List.mem_cons.mpr (Or.inl ?_)
        cases w
        simp_all
      · simp [hw] at h

lemma lastWrite_isSome_of_mem (ws : List (Nat × CacheEntry)) (pid : Nat) (e : CacheEntry)
    (h : (pid, e) ∈ ws) : (lastWrite ws pid).isSome := by
  induction ws with
  | nil => simp at h
  | cons w ws ih =>
    rw [lastWrite]
    cases hl : lastWrite ws pid with
    | some e2 => simp
    | none =>
      rcases List.mem_cons.mp h with h1 | h2
      · simp [← h1]
      · have := ih h2
        rw [hl] at this
        simp at this

lemma rowsMatching_eq_zero_iff (db : List Stock) (pid : Nat) :
    rowsMatching db pid = 0 ↔ dbQty db pid = none := by
  induction db with
  | nil => simp [rowsMatching, dbQty]
  | cons s rest ih =>
    by_cases h : s.product_id = pid <;>
      simp [rowsMatching, dbQty, List.find?, h] at ih ⊢ <;>
      simpa [rowsMatching, dbQty] using ih

lemma sqlSetQty_of_no_match (db : List Stock) (pid : Nat) (q : Int)
    (h : rowsMatching db pid = 0) : sqlSetQty db pid q = db := by
  induction db with
  | nil => rfl
  | cons s rest ih =>
    by_cases hs : s.product_id = pid
    · simp [rowsMatching, hs] at h
    · simp [rowsMatching, hs] at h ih ⊢
      simpa [sqlSetQty, hs] using ih h

lemma dbQty_sqlSetQty_self (db : List Stock) (pid : Nat) (q : Int) :
    dbQty (sqlSetQty db pid q) pid = (dbQty db pid).map (fun _ => q) := by
  induction db with
  | nil => rfl
  | cons s rest ih =>
    by_cases h : s.product_id = pid <;>
      simp [dbQty, sqlSetQty, List.find?, h] at ih ⊢ <;>
      simpa [dbQty, sqlSetQty] using ih

lemma dbQty_append_right (db : List Stock) (db2 : List Stock) (pid : Nat)
    (h : dbQty db pid = none) : dbQty (db ++ db2) pid = dbQty db2 pid := by
  induction db with
  | nil => simp [dbQty]
  | cons s rest ih =>
    by_cases hs : s.product_id = pid <;>
      simp [dbQty, List.find?, hs] at h ih ⊢
    exact ih h

lemma cacheLookup_ne_nil (c : Cache) (pid : Nat) (e : CacheEntry)
    (h : cacheLookup c pid = some e) : c ≠ [] := by
  intro hc
  rw [hc] at h
  simp [cacheLookup] at h

lemma hsetQuantity_lookup_some (c : Cache) (pid : Nat) (q : Int) (e : CacheEntry)
    (h : cacheLookup c pid = some e) :
    cacheLookup (hsetQuantity c pid q) pid = some { e with quantity := some q } := by
  rw [hsetQuantity, h]
  exact cacheLookup_cacheSet_self c pid _

lemma hsetQuantity_lookup_none (c : Cache) (pid : Nat) (q : Int)
    (h : cacheLookup c pid = none) :
    cacheLookup (hsetQuantity c pid q) pid = some { quantity := some q } := by
  rw [hsetQuantity, h]
  exact cacheLookup_cacheSet_self c pid _

lemma hsetQuantity_lookup_ne (c : Cache) (pid pid2 : Nat) (q : Int)
    (h : pid2 ≠ pid) :
    cacheLookup (hsetQuantity c pid q) pid2 = cacheLookup c pid2 := by
  rw [hsetQuantity]
  cases cacheLookup c pid <;> exact cacheLookup_cacheSet_ne c pid pid2 _ h

lemma currentQty_hsetQuantity_self (c : Cache) (pid : Nat) (q : Int) :
    currentQty (hsetQuantity c pid q) pid = q := by
  cases h : cacheLookup c pid with
  | some e => simp [currentQty, hsetQuantity_lookup_some c pid q e h]
  | none => simp [currentQty, hsetQuantity_lookup_none c pid q h]

lemma redisWriteOf_fst (c : Cache) (op : String) (it : LineItem) :
    (redisWriteOf c op it).1 = it.product_id := by
  cases h : it.shape <;> simp [redisWriteOf, normalizeRedisItem, h]

lemma redisWriteOf_snd (c : Cache) (op : String) (it : LineItem) :
    (redisWriteOf c op it).2 =
      fullEntry (it.name.getD ("Product " ++ toString it.product_id))
        (it.sku.getD ("SKU-" ++ toString it.product_id))
        (it.price.getD 0)
        (if op = "+" then currentQty c it.product_id + it.quantity
         else currentQty c it.product_id - it.quantity) := by
  cases h : it.shape <;>
    by_cases hop : op = "+" <;>
      simp [redisWriteOf, normalizeRedisItem, h, hop, fullEntry, sub_eq_add_neg]

lemma mem_joinProductsStocks (products : List Product) (stocks : List Stock)
    (r : Nat × String × String × Rat × Int) :
    r ∈ joinProductsStocks products stocks ↔
      ∃ p ∈ products, ∃ s ∈ stocks, s.product_id = p.id ∧
        r = (p.id, p.name, p.sku, p.price, s.quantity) := by
  simp only [joinProductsStocks, List.mem_flatMap, List.mem_map, List.mem_filter]
  constructor
  · rintro ⟨p, hp, s, ⟨hs, hmatch⟩, hr⟩
    exact ⟨p, hp, s, hs, by simpa using hmatch, hr.symm⟩
  · rintro ⟨p, hp, s, hs, hmatch, hr⟩
    exact ⟨p, hp, s, ⟨hs, by simpa using hmatch⟩, hr.symm⟩

lemma update_stock_mysql_loop_homog (sh : Shape) (op : String)
    (hop : op = "+" ∨ op = "-") (items : List LineItem) (db : List Stock)
    (hsh : ∀ it ∈ items, it.shape = sh) :
    update_stock_mysql_loop (sh = Shape.obj) db items op =
      Except.ok (applyItemsOp db items op) := by
  induction items generalizing db with
  | nil => simp [update_stock_mysql_loop, applyItemsOp]
  | cons it rest ih =>
    have hit : it.shape = sh := hsh it (List.mem_cons_self it rest)
    have hread : readItemAs (sh = Shape.obj) it = Except.ok (it.product_id, it.quantity) := by
      rw [← hit]
      exact readItemAs_self it
    rw [update_stock_mysql_loop, hread]
    simp only [execUpdateStockSql_valid _ _ _ _ hop]
    rw [ih _ (fun t ht => hsh t (List.mem_cons_of_mem it ht))]
    simp [applyItemsOp]

lemma update_stock_mysql_homog (db : List Stock) (items : List LineItem) (sh : Shape)
    (op : String) (hop : op = "+" ∨ op = "-") (hsh : ∀ it ∈ items, it.shape = sh) :
    update_stock_mysql db items op = Except.ok (applyItemsOp db items op) := by
  cases items with
  | nil => simp [update_stock_mysql, applyItemsOp]
  | cons first rest =>
    have hfirst : first.shape = sh := hsh first (List.mem_cons_self first rest)
    rw [update_stock_mysql, hfirst]
    exact update_stock_mysql_loop_homog sh op hop _ db hsh

lemma update_stock_mysql_single (db : List Stock) (it : LineItem) (op : String)
    (hop : op = "+" ∨ op = "-") :
    update_stock_mysql db [it] op =
      Except.ok (sqlAdjust db it.product_id (opDelta op it.quantity)) := by
  rw [update_stock_mysql_homog db [it] it.shape op hop (by simp)]
  simp [applyItemsOp]

lemma update_stock_redis_warm_lookup (products : List Product) (stocks : List Stock)
    (c : Cache) (op : String) (pre post : List LineItem) (it : LineItem)
    (hc : c ≠ []) (hpost : ∀ it2 ∈ post, it2.product_id ≠ it.product_id) :
    cacheLookup (update_stock_redis products stocks c (pre ++ it :: post) op) it.product_id =
      some (fullEntry (it.name.getD ("Product " ++ toString it.product_id))
        (it.sku.getD ("SKU-" ++ toString it.product_id))
        (it.price.getD 0)
        (if op = "+" then currentQty c it.product_id + it.quantity
         else currentQty c it.product_id - it.quantity)) := by
  have hkeys : ∀ x ∈ post.map (redisWriteOf c op), x.1 ≠ it.product_id := by
    intro x hx
    rcases List.mem_map.mp hx with ⟨t, ht, rfl⟩
    rw [redisWriteOf_fst]
    exact hpost t ht
  have hlast : lastWrite ((it :: post).map (redisWriteOf c op)) it.product_id =
      some (redisWriteOf c op it).2 := by
    rw [List.map_cons, lastWrite, lastWrite_eq_none _ _ hkeys, redisWriteOf_fst]
    simp
  rw [update_stock_redis]
  have hne : (pre ++ it :: post).isEmpty = false := by simp
  have hce : c.isEmpty = false := by simp [List.isEmpty_iff, hc]
  rw [hne, hce]
  simp only [Bool.false_eq_true, if_false]
  rw [cacheLookup_foldl_set, List.map_append, lastWrite_append, hlast]
  simp [redisWriteOf_snd]

/-- C9: with an empty `order_items` batch, `update_stock_redis` returns at once
and leaves the cache untouched (no reads, no writes, no resync). -/
theorem C9_empty_batch_noop (products : List Product) (stocks : List Stock)
    (c : Cache) (operation : String) :
    update_stock_redis products stocks c [] operation = c := rfl

/-- C2: checking out a line item and then checking the same line item back in
through the durable store restores the store exactly; in particular the product
keeps its original quantity Q. -/
theorem C2_checkout_checkin_roundtrip (db : List Stock) (pid : Nat) (Q D : Int)
    (it : LineItem) (hpid : it.product_id = pid) (hD : it.quantity = D)
    (hQ : dbQty db pid = some Q) :
    ∃ db1, check_out_items_from_stock db [it] = Except.ok db1 ∧
      check_in_items_to_stock db1 [it] = Except.ok db ∧ dbQty db pid = some Q := by
  refine ⟨sqlAdjust db pid (-D), ?_, ?_, hQ⟩
  · rw [check_out_items_from_stock, update_stock_mysql_single db it "-" (Or.inr rfl)]
    simp [opDelta, hpid, hD]
  · rw [check_in_items_to_stock, update_stock_mysql_single _ it "+" (Or.inl rfl)]
    simp [opDelta, hpid, hD, sqlAdjust_sqlAdjust, sqlAdjust_zero]

/-- Witness for C2 at a concrete store and line item. -/
theorem C2_checkout_checkin_roundtrip_witness :
    ∃ db1, check_out_items_from_stock [⟨1, 10⟩]
        [{ shape := Shape.obj, product_id := 1, quantity := 4 }] = Except.ok db1 ∧
      check_in_items_to_stock db1
        [{ shape := Shape.obj, product_id := 1, quantity := 4 }] = Except.ok [⟨1, 10⟩] ∧
      dbQty [⟨1, 10⟩] 1 = some 10 :=
  C2_checkout_checkin_roundtrip [⟨1, 10⟩] 1 10 4
    { shape := Shape.obj, product_id := 1, quantity := 4 } rfl rfl (by decide)

/-- C6: a line item whose product has no StockRecord is a silent no-op for the
durable store: no error is raised, no row is inserted, and the store is left
unchanged. -/
theorem C6_missing_product_silent_noop (db : List Stock) (it : LineItem) (op : String)
    (hop : op = "+" ∨ op = "-") (habs : ∀ s ∈ db, s.product_id ≠ it.product_id) :
    update_stock_mysql db [it] op = Except.ok db := by
  rw [update_stock_mysql_single db it op hop]
  rw [sqlAdjust_not_mem db it.product_id _ habs]

/-- Witness for C6: checking out a product with no stock row leaves the store
as it was, with no error. -/
theorem C6_missing_product_silent_noop_witness :
    update_stock_mysql [⟨2, 5⟩] [{ shape := Shape.obj, product_id := 1, quantity := 3 }] "-" =
      Except.ok [⟨2, 5⟩] :=
  C6_missing_product_silent_noop [⟨2, 5⟩]
    { shape := Shape.obj, product_id := 1, quantity := 3 } "-" (Or.inr rfl) (by decide)

/-- C3 counterexample: in a batch mixing a mapping-shaped first item with an
object-shaped second item, the second item is read with the mapping accessor
(the shape test samples only the first item), so the call raises TypeError
instead of applying the correct adjustment to every item. -/
theorem C3_counterexample :
    update_stock_mysql [⟨1, 10⟩, ⟨2, 10⟩]
        [{ shape := Shape.kvmap, product_id := 1, quantity := 2 },
         { shape := Shape.obj, product_id := 2, quantity := 3 }] "-" =
      Except.error "TypeError"
    ∧ update_stock_mysql [⟨1, 10⟩, ⟨2, 10⟩]
        [{ shape := Shape.kvmap, product_id := 1, quantity := 2 },
         { shape := Shape.obj, product_id := 2, quantity := 3 }] "-" ≠
      Except.ok [⟨1, 8⟩, ⟨2, 7⟩] := by
  constructor
  · decide
  · decide

/-- C3 amended: shape detection is per batch, from the first item; whenever all
items of the batch share the first item's shape, each item's
(product_id, quantity) is read correctly and the correct per-item adjustment is
applied to every item. -/
theorem C3_homogeneous_batch_applies_each (db : List Stock) (items : List LineItem)
    (sh : Shape) (op : String) (hop : op = "+" ∨ op = "-")
    (hsh : ∀ it ∈ items, it.shape = sh) :
    update_stock_mysql db items op = Except.ok (applyItemsOp db items op) :=
  update_stock_mysql_homog db items sh op hop hsh

/-- Witness for the amended C3: an all-object batch is adjusted item by item. -/
theorem C3_homogeneous_batch_applies_each_witness :
    update_stock_mysql [⟨1, 10⟩, ⟨2, 10⟩]
        [{ shape := Shape.obj, product_id := 1, quantity := 2 },
         { shape := Shape.obj, product_id := 2, quantity := 3 }] "-" =
      Except.ok [⟨1, 8⟩, ⟨2, 7⟩] :=
  (C3_homogeneous_batch_applies_each [⟨1, 10⟩, ⟨2, 10⟩]
      [{ shape := Shape.obj, product_id := 1, quantity := 2 },
       { shape := Shape.obj, product_id := 2, quantity := 3 }]
      Shape.obj "-" (Or.inr rfl) (by decide)).trans (by decide)

/-- C8: with a warm cache (at least one `stock:*` key) each line item is
normalized per item and the write it queues stores quantity
`current ± quantity` (current defaulting to 0 when that item's key is absent),
with name, sku and price defaulting to "Product id", "SKU-id" and 0.0; the
resulting quantity may be negative. Stated for the last line item of its
product in the batch, whose pipelined write is the one that survives. -/
theorem C8_warm_cache_per_item_delta (products : List Product) (stocks : List Stock)
    (c : Cache) (op : String) (pre post : List LineItem) (it : LineItem)
    (hc : c ≠ []) (hpost : ∀ it2 ∈ post, it2.product_id ≠ it.product_id) :
    cacheLookup (update_stock_redis products stocks c (pre ++ it :: post) op) it.product_id =
      some (fullEntry (it.name.getD ("Product " ++ toString it.product_id))
        (it.sku.getD ("SKU-" ++ toString it.product_id))
        (it.price.getD 0)
        (if op = "+" then currentQty c it.product_id + it.quantity
         else currentQty c it.product_id - it.quantity)) :=
  update_stock_redis_warm_lookup products stocks c op pre post it hc hpost

/-- Witness for C8: a warm cache without the item's own key bases the delta on
0, yields a negative quantity, and fills in the default metadata. -/
theorem C8_warm_cache_per_item_delta_witness :
    cacheLookup (update_stock_redis [] [] [(2, { quantity := some 1 })]
        [{ shape := Shape.kvmap, product_id := 1, quantity := 3 }] "-") 1 =
      some (fullEntry "Product 1" "SKU-1" 0 (-3)) :=
  (C8_warm_cache_per_item_delta [] [] [(2, { quantity := some 1 })] "-" [] []
      { shape := Shape.kvmap, product_id := 1, quantity := 3 }
      (by simp) (by simp)).trans (by decide)

/-- C7: with a non-empty batch and a cold cache (zero `stock:*` keys),
`update_stock_redis` computes no per-item delta and delegates entirely to the
resync, which writes a full entry (quantity, name, sku, price) for every
product that has a StockRecord in the products-stocks join, and writes nothing
when the join is empty. -/
theorem C7_cold_cache_delegates_full_resync (products : List Product)
    (stocks : List Stock) (items : List LineItem) (op : String) (hne : items ≠ []) :
    update_stock_redis products stocks [] items op =
      _populate_redis_from_mysql products stocks []
    ∧ (joinProductsStocks products stocks = [] →
        _populate_redis_from_mysql products stocks [] = [])
    ∧ (∀ p ∈ products, ∀ s ∈ stocks, s.product_id = p.id →
        ∃ p2 s2, p2 ∈ products ∧ s2 ∈ stocks ∧ p2.id = p.id ∧ s2.product_id = p.id ∧
          cacheLookup (_populate_redis_from_mysql products stocks []) p.id =
            some (fullEntry p2.name p2.sku p2.price s2.quantity)) := by
  refine ⟨?_, ?_, ?_⟩
  · rw [update_stock_redis]
    have h1 : items.isEmpty = false := by simp [List.isEmpty_iff, hne]
    rw [h1]
    simp
  · intro hj
    rw [_populate_redis_from_mysql]
    simp [hj]
  · intro p hp s hs hmatch
    have hrow : (p.id, p.name, p.sku, p.price, s.quantity) ∈ joinProductsStocks products stocks :=
      (mem_joinProductsStocks products stocks _).mpr ⟨p, hp, s, hs, hmatch, rfl⟩
    have hlen : ¬ (joinProductsStocks products stocks).length = 0 := by
      intro h0
      rw [List.length_eq_zero] at h0
      rw [h0] at hrow
      simp at hrow
    have hpop : _populate_redis_from_mysql products stocks [] =
        ((joinProductsStocks products stocks).map joinWrite).foldl
          (fun acc w => cacheSet acc w.1 w.2) [] := by
      rw [_populate_redis_from_mysql]
      simp [hlen]
    have hmemw : (p.id, fullEntry p.name p.sku p.price s.quantity) ∈
        (joinProductsStocks products stocks).map joinWrite :=
      List.mem_map.mpr ⟨_, hrow, rfl⟩
    have hsome := lastWrite_isSome_of_mem _ p.id _ hmemw
    obtain ⟨e, he⟩ := Option.isSome_iff_exists.mp hsome
    have hmem2 := lastWrite_mem _ _ _ he
    rcases List.mem_map.mp hmem2 with ⟨row2, hrow2, heqw⟩
    rcases (mem_joinProductsStocks products stocks row2).mp hrow2 with
      ⟨p2, hp2, s2, hs2, hmatch2, hr2⟩
    subst hr2
    have hid : p2.id = p.id := by
      have := congrArg Prod.fst heqw
      simpa [joinWrite] using this
    have hent : e = fullEntry p2.name p2.sku p2.price s2.quantity := by
      have := congrArg Prod.snd heqw
      simpa [joinWrite] using this.symm
    refine ⟨p2, s2, hp2, hs2, hid, by rw [hmatch2, hid], ?_⟩
    rw [hpop, cacheLookup_foldl_set, he]
    simp [hent]

/-- Witness for C7 at a one-product store: the cold-cache call equals the
resync, and the product's entry is rebuilt in full. -/
theorem C7_cold_cache_delegates_full_resync_witness :
    update_stock_redis [⟨1, "A", "S", 2⟩] [⟨1, 5⟩] []
        [{ shape := Shape.obj, product_id := 1, quantity := 2 }] "-" =
      _populate_redis_from_mysql [⟨1, "A", "S", 2⟩] [⟨1, 5⟩] []
    ∧ ∃ p2 s2, p2 ∈ [(⟨1, "A", "S", 2⟩ : Product)] ∧ s2 ∈ [(⟨1, 5⟩ : Stock)] ∧
        p2.id = 1 ∧ s2.product_id = 1 ∧
        cacheLookup (_populate_redis_from_mysql [⟨1, "A", "S", 2⟩] [⟨1, 5⟩] []) 1 =
          some (fullEntry p2.name p2.sku p2.price s2.quantity) := by
  have h := C7_cold_cache_delegates_full_resync [⟨1, "A", "S", 2⟩] [⟨1, 5⟩]
    [{ shape := Shape.obj, product_id := 1, quantity := 2 }] "-" (by simp)
  exact ⟨h.1, h.2.2 ⟨1, "A", "S", 2⟩ (by simp) ⟨1, 5⟩ (by simp) rfl⟩

/-- C1: starting from equal durable and cached quantities Q for a product, one
order operation applied through both stores (durable batch adjust, then cache
update with a warm cache) leaves both equal: Q+D on check-in ("+") and Q-D on
checkout ("-"). -/
theorem C1_dual_write_consistency (products : List Product) (pstocks : List Stock)
    (db : List Stock) (c : Cache) (pid : Nat) (Q D : Int) (it : LineItem)
    (e : CacheEntry) (op : String) (hop : op = "+" ∨ op = "-")
    (hpid : it.product_id = pid) (hD : it.quantity = D)
    (hdb : dbQty db pid = some Q)
    (hce : cacheLookup c pid = some e) (heqty : e.quantity = some Q) :
    ∃ db2, update_stock_mysql db [it] op = Except.ok db2 ∧
      dbQty db2 pid = some (if op = "+" then Q + D else Q - D) ∧
      currentQty (update_stock_redis products pstocks c [it] op) pid =
        (if op = "+" then Q + D else Q - D) := by
  have hcur : currentQty c pid = Q := by simp [currentQty, hce, heqty]
  refine ⟨sqlAdjust db it.product_id (opDelta op it.quantity),
    update_stock_mysql_single db it op hop, ?_, ?_⟩
  · rw [hpid, hD, dbQty_sqlAdjust_self, hdb]
    rcases hop with h | h <;> subst h <;> simp [opDelta, sub_eq_add_neg]
  · have hwarm := update_stock_redis_warm_lookup products pstocks c op [] [] it
      (cacheLookup_ne_nil c pid e hce) (by simp)
    rw [List.nil_append, hpid] at hwarm
    rcases hop with h | h <;> subst h <;>
      simp [currentQty, hwarm, fullEntry, hcur, hD, hce, heqty]

/-- Witness for C1: a checkout of 4 units against durable and cached quantity
10 leaves 6 in both stores. -/
theorem C1_dual_write_consistency_witness :
    ∃ db2, update_stock_mysql [⟨1, 10⟩]
        [{ shape := Shape.obj, product_id := 1, quantity := 4 }] "-" = Except.ok db2 ∧
      dbQty db2 1 = some 6 ∧
      currentQty (update_stock_redis [] [] [(1, { quantity := some 10 })]
        [{ shape := Shape.obj, product_id := 1, quantity := 4 }] "-") 1 = 6 := by
  obtain ⟨db2, h1, h2, h3⟩ := C1_dual_write_consistency [] [] [⟨1, 10⟩]
    [(1, { quantity := some 10 })] 1 10 4
    { shape := Shape.obj, product_id := 1, quantity := 4 } { quantity := some 10 } "-"
    (Or.inr rfl) rfl rfl (by decide) (by decide) rfl
  exact ⟨db2, h1, h2.trans (by decide), h3.trans (by decide)⟩

/-- C4: `set_stock_for_product` sets the absolute durable quantity, inserting a
new row exactly when the UPDATE matched zero rows; the result message reads
"rows added" exactly on the insert path and "rows updated" exactly on the
update path; the cache entry's quantity becomes the same value while its
metadata fields and all other keys are untouched. -/
theorem C4_set_stock_contract (db : List Stock) (c : Cache) (pid : Nat) (q : Int) :
    dbQty (set_stock_for_product db c pid q FailPoint.noFail).db pid = some q
    ∧ (rowsMatching db pid = 0 →
        (set_stock_for_product db c pid q FailPoint.noFail).db =
          db ++ [{ product_id := pid, quantity := q }]
        ∧ (set_stock_for_product db c pid q FailPoint.noFail).message =
            some ("rows added: " ++ toString pid))
    ∧ (rowsMatching db pid ≠ 0 →
        (set_stock_for_product db c pid q FailPoint.noFail).db = sqlSetQty db pid q
        ∧ (set_stock_for_product db c pid q FailPoint.noFail).message =
            some ("rows updated: " ++ toString (rowsMatching db pid)))
    ∧ currentQty (set_stock_for_product db c pid q FailPoint.noFail).cache pid = q
    ∧ (∀ e, cacheLookup c pid = some e →
        cacheLookup (set_stock_for_product db c pid q FailPoint.noFail).cache pid =
          some { e with quantity := some q })
    ∧ (∀ pid2, pid2 ≠ pid →
        cacheLookup (set_stock_for_product db c pid q FailPoint.noFail).cache pid2 =
          cacheLookup c pid2) := by
  by_cases hrc : rowsMatching db pid = 0
  · have hnone : dbQty db pid = none := (rowsMatching_eq_zero_iff db pid).mp hrc
    have hdb : (set_stock_for_product db c pid q FailPoint.noFail).db =
        db ++ [{ product_id := pid, quantity := q }] := by
      simp [set_stock_for_product, hrc, sqlSetQty_of_no_match db pid q hrc]
    have hcache : (set_stock_for_product db c pid q FailPoint.noFail).cache =
        hsetQuantity c pid q := by
      simp [set_stock_for_product, hrc]
    refine ⟨?_, fun _ => ⟨hdb, by simp [set_stock_for_product, hrc]⟩,
      fun h => absurd hrc h, ?_, ?_, ?_⟩
    · rw [hdb, dbQty_append_right db _ pid hnone]
      simp [dbQty, List.find?]
    · rw [hcache]
      exact currentQty_hsetQuantity_self c pid q
    · intro e he
      rw [hcache]
      exact hsetQuantity_lookup_some c pid q e he
    · intro pid2 hne2
      rw [hcache]
      exact hsetQuantity_lookup_ne c pid pid2 q hne2
  · have hsomeq : ∃ Q0, dbQty db pid = some Q0 := by
      cases hq : dbQty db pid with
      | some Q0 => exact ⟨Q0, rfl⟩
      | none => exact absurd ((rowsMatching_eq_zero_iff db pid).mpr hq) hrc
    obtain ⟨Q0, hQ0⟩ := hsomeq
    have hdb : (set_stock_for_product db c pid q FailPoint.noFail).db =
        sqlSetQty db pid q := by
      simp [set_stock_for_product, hrc]
    have hcache : (set_stock_for_product db c pid q FailPoint.noFail).cache =
        hsetQuantity c pid q := by
      simp [set_stock_for_product, hrc]
    refine ⟨?_, fun h => absurd h hrc,
      fun _ => ⟨hdb, by simp [set_stock_for_product, hrc]⟩, ?_, ?_, ?_⟩
    · rw [hdb, dbQty_sqlSetQty_self, hQ0]
      rfl
    · rw [hcache]
      exact currentQty_hsetQuantity_self c pid q
    · intro e he
      rw [hcache]
      exact hsetQuantity_lookup_some c pid q e he
    · intro pid2 hne2
      rw [hcache]
      exact hsetQuantity_lookup_ne c pid pid2 q hne2

/-- Witness for C4: updating an existing row reports "rows updated: 1" and
rewrites only the cached quantity, keeping the cached name. -/
theorem C4_set_stock_contract_witness :
    (set_stock_for_product [⟨1, 5⟩] [(1, { quantity := some 5, name := some "A" })]
        1 7 FailPoint.noFail).message = some "rows updated: 1"
    ∧ cacheLookup (set_stock_for_product [⟨1, 5⟩]
        [(1, { quantity := some 5, name := some "A" })] 1 7 FailPoint.noFail).cache 1 =
      some { quantity := some 7, name := some "A" } := by
  have h := C4_set_stock_contract [⟨1, 5⟩] [(1, { quantity := some 5, name := some "A" })] 1 7
  refine ⟨((h.2.2.1 (by decide)).2).trans (by decide), ?_⟩
  exact (h.2.2.2.2.1 { quantity := some 5, name := some "A" } (by decide)).trans (by decide)

/-- C5: whenever the durable write inside `set_stock_for_product` raises, the
transaction is rolled back (durable store unchanged), the failure is re-raised
with no result message, the cache write is never attempted (cache unchanged),
nothing is committed, and on every execution the session is closed on exit. -/
theorem C5_failure_rollback_reraise_close (db : List Stock) (c : Cache) (pid : Nat)
    (q : Int) (fp : FailPoint)
    (hraised : (set_stock_for_product db c pid q fp).raised = true) :
    (set_stock_for_product db c pid q fp).db = db
    ∧ (set_stock_for_product db c pid q fp).cache = c
    ∧ (set_stock_for_product db c pid q fp).message = none
    ∧ (set_stock_for_product db c pid q fp).committed = false
    ∧ ∀ fp2 : FailPoint, (set_stock_for_product db c pid q fp2).sessionClosed = true := by
  have hclosed : ∀ fp2 : FailPoint,
      (set_stock_for_product db c pid q fp2).sessionClosed = true := by
    intro fp2
    cases fp2 <;> by_cases h : rowsMatching db pid = 0 <;>
      simp [set_stock_for_product, h]
  cases fp with
  | noFail =>
    by_cases h : rowsMatching db pid = 0 <;>
      simp [set_stock_for_product, h] at hraised
  | onUpdate => exact ⟨rfl, rfl, rfl, rfl, hclosed⟩
  | onInsert =>
    by_cases h : rowsMatching db pid = 0
    · refine ⟨?_, ?_, ?_, ?_, hclosed⟩ <;> simp [set_stock_for_product, h]
    · simp [set_stock_for_product, h] at hraised

/-- Witness for C5: a failing UPDATE leaves both stores untouched and still
closes the session. -/
theorem C5_failure_rollback_reraise_close_witness :
    (set_stock_for_product [⟨1, 5⟩] [(1, { quantity := some 5 })] 1 7
        FailPoint.onUpdate).db = [⟨1, 5⟩]
    ∧ (set_stock_for_product [⟨1, 5⟩] [(1, { quantity := some 5 })] 1 7
        FailPoint.onUpdate).cache = [(1, { quantity := some 5 })]
    ∧ (set_stock_for_product [⟨1, 5⟩] [(1, { quantity := some 5 })] 1 7
        FailPoint.onUpdate).message = none
    ∧ (set_stock_for_product [⟨1, 5⟩] [(1, { quantity := some 5 })] 1 7
        FailPoint.noFail).sessionClosed = true := by
  have h := C5_failure_rollback_reraise_close [⟨1, 5⟩] [(1, { quantity := some 5 })] 1 7
    FailPoint.onUpdate (by decide)
  exact ⟨h.1, h.2.1, h.2.2.1, h.2.2.2.2 FailPoint.noFail⟩

/-- C10: `set_stock_for_product` commits exactly on the insert path (UPDATE
matched zero rows); on the update path it still performs the cache write but
returns without ever committing the session. -/
theorem C10_commit_only_on_insert_path (db : List Stock) (c : Cache) (pid : Nat)
    (q : Int) :
    (set_stock_for_product db c pid q FailPoint.noFail).committed =
      decide (rowsMatching db pid = 0)
    ∧ (set_stock_for_product db c pid q FailPoint.noFail).cache =
      hsetQuantity c pid q := by
  by_cases h : rowsMatching db pid = 0 <;> simp [set_stock_for_product, h]

end StockLab
